import Mathlib

/-!
Verification development for the gapir replay-server session orchestration
core (`cmd/gapir/cc/main.cpp`).

The C++ source is shallowly embedded as follows.

* `PrewarmData` mirrors the C++ struct `PrewarmData` (main.cpp:95-101).
  The two raw pointers `prewarm_service` / `prewarm_context` are modelled as
  `Option Nat` (an identifier of the connection resp. of its `Context`;
  `none` models a null pointer).
* The outcomes of the fallible external collaborator operations
  `Context::initialize`, `Context::interpret` and `Context::cleanup` are
  drawn from an oracle `ctxOps : Nat → Bool`; the `k`-th fallible call made
  by a session consumes `ctxOps k`.  `Context::prefetch` returns nothing and
  consumes no oracle entry.
* Every externally visible action of the session loop is recorded as an
  `Event`, in program order.
* The null-pointer dereference that `cleanup_state` performs when
  `prewarm_context` is null is modelled by returning `none`
  (propagated by the session loop as the `crash` outcome, since the C++
  behaviour is undefined from that point on).
-/

namespace Gapir

/-- A replay-session request (`replay_service::ReplayRequest`, used in
main.cpp:197-261): `kReplay` carries a replay id and a dependent id,
`kPrewarm` a prerun id and a cleanup id; `other` stands for any request kind
handled by the `default:` branch (main.cpp:261). -/
inductive ReplayRequest where
  | replay (replay_id dependent_id : String)
  | prewarm (prerun_id cleanup_id : String)
  | other
deriving DecidableEq, Repr

/-- The mutable prewarm bookkeeping shared by all connections
(C++ struct `PrewarmData`, main.cpp:95-101).  Field order matches the
C++ declaration order. -/
structure PrewarmData where
  prewarm_service : Option Nat
  prewarm_context : Option Nat
  prewarm_id : String
  cleanup_id : String
  current_state : String
deriving DecidableEq, Repr

/-- The all-empty `PrewarmData` produced by the C++ default member
initializers (main.cpp:95-101). -/
def initialPrewarmData : PrewarmData := ⟨none, none, "", "", ""⟩

/-- `prewarm->cleanup_id = c` (main.cpp:243). -/
def setCleanupId (pw : PrewarmData) (c : String) : PrewarmData :=
  ⟨pw.prewarm_service, pw.prewarm_context, pw.prewarm_id, c, pw.current_state⟩

/-- `prewarm->current_state = s` (main.cpp:228). -/
def setCurrentState (pw : PrewarmData) (s : String) : PrewarmData :=
  ⟨pw.prewarm_service, pw.prewarm_context, pw.prewarm_id, pw.cleanup_id, s⟩

/-- Externally visible actions performed while handling requests.
`initOp ctx id ok` records `ctx->initialize(id)` returning `ok`, and so on;
`sendFinished` records `replayConn->sendReplayFinished()` (main.cpp:224);
`primeMsg t s c` records `prewarm_service->primeState(s, c)` sent to the
connection `t` (main.cpp:231-232). -/
inductive Event where
  | initOp (ctx : Nat) (id : String) (ok : Bool)
  | prefetchOp (ctx : Nat)
  | interpretOp (ctx : Nat) (flush : Bool) (ok : Bool)
  | cleanupOp (ctx : Nat) (ok : Bool)
  | sendFinished
  | primeMsg (target : Nat) (state_id cleanup_id : String)
deriving DecidableEq, Repr

/-- Result of one of the two helper lambdas (`cleanup_state`,
`prime_state`): the returned boolean, the updated shared `PrewarmData`, the
events emitted, and the next oracle index. -/
structure OpResult where
  ok : Bool
  pw : PrewarmData
  evs : List Event
  n : Nat
deriving DecidableEq, Repr

/-- The `cleanup_state` lambda (main.cpp:140-160).  It unconditionally
dereferences `prewarm->prewarm_context`; when that pointer is null the C++
behaviour is undefined, modelled by the result `none`.  Otherwise it
initializes the context to `cleanup_id`, prefetches when a cache is
configured, interprets, and runs the context cleanup; the first failure
returns `false` with the shared state untouched, and full success clears
all five `PrewarmData` fields. -/
def cleanup_state (cache : Bool) (ctxOps : Nat → Bool) (pw : PrewarmData)
    (n : Nat) : Option OpResult :=
  match pw.prewarm_context with
  | none => none
  | some ctx =>
    let ok1 := ctxOps n
    let e1 : List Event := [Event.initOp ctx pw.cleanup_id ok1]
    if ok1 = false then some ⟨false, pw, e1, n + 1⟩
    else
      let e2 := e1 ++ (if cache then [Event.prefetchOp ctx] else [])
      let ok2 := ctxOps (n + 1)
      let e3 := e2 ++ [Event.interpretOp ctx true ok2]
      if ok2 = false then some ⟨false, pw, e3, n + 2⟩
      else
        let ok3 := ctxOps (n + 2)
        let e4 := e3 ++ [Event.cleanupOp ctx ok3]
        if ok3 = false then some ⟨false, pw, e4, n + 3⟩
        else some ⟨true, ⟨none, none, "", "", ""⟩, e4, n + 3⟩

/-- The `prime_state` lambda (main.cpp:162-188), run by the connection
`connId` on its own context `ctxId`.  It initializes the context to `state`,
prefetches when a cache is configured, interprets without flushing, and on
success — only when `cleanup` is non-empty — records the primed state and
this connection as the prewarm target. -/
def prime_state (cache : Bool) (connId ctxId : Nat) (ctxOps : Nat → Bool)
    (state cleanup : String) (pw : PrewarmData) (n : Nat) : OpResult :=
  let ok1 := ctxOps n
  let e1 : List Event := [Event.initOp ctxId state ok1]
  if ok1 = false then ⟨false, pw, e1, n + 1⟩
  else
    let e2 := e1 ++ (if cache then [Event.prefetchOp ctxId] else [])
    let ok2 := ctxOps (n + 1)
    let e3 := e2 ++ [Event.interpretOp ctxId false ok2]
    if ok2 = false then ⟨false, pw, e3, n + 2⟩
    else
      let pw' := if cleanup = "" then pw
        else ⟨some connId, some ctxId, state, cleanup, state⟩
      ⟨true, pw', e3, n + 2⟩

/-- Control-flow outcome of handling one request: `next` continues the
request loop (`break` / `continue` in the C++ switch), `halt` leaves the
connection handler (`return`), `crash` marks the undefined behaviour of a
null `prewarm_context` dereference. -/
inductive StepOut where
  | next
  | halt
  | crash
deriving DecidableEq, Repr

/-- Result of handling one request. -/
structure StepResult where
  out : StepOut
  pw : PrewarmData
  evs : List Event
  n : Nat
deriving DecidableEq, Repr

/-- First phase of the `kReplay` case (main.cpp:201-209): when the shared
context is not already in the dependent state, run `cleanup_state` —
its boolean result is discarded by the C++ code — and then, if a dependent
state is requested, run `prime_state(dependent_id, "")`, whose result is
also discarded.  Returns `none` when `cleanup_state` dereferenced a null
`prewarm_context`. -/
def replayEnter (cache : Bool) (connId ctxId : Nat) (ctxOps : Nat → Bool)
    (dependent_id : String) (pw : PrewarmData) (n : Nat) :
    Option (PrewarmData × List Event × Nat) :=
  if pw.current_state ≠ dependent_id then
    match cleanup_state cache ctxOps pw n with
    | none => none
    | some r =>
      if dependent_id ≠ "" then
        let r2 := prime_state cache connId ctxId ctxOps dependent_id "" r.pw r.n
        some (r2.pw, r.evs ++ r2.evs, r2.n)
      else some (r.pw, r.evs, r.n)
  else some (pw, [], n)

/-- The prewarm-handoff check after a successful Replay cleanup
(main.cpp:229-233): when the prewarm target connection is set and both
`prewarm_id` and `cleanup_id` are non-empty, a single
`primeState(prewarm_id, cleanup_id)` instruction is sent to that target. -/
def handoffEvents (pw : PrewarmData) : List Event :=
  match pw.prewarm_service with
  | some t =>
    if pw.prewarm_id ≠ "" ∧ pw.cleanup_id ≠ "" then
      [Event.primeMsg t pw.prewarm_id pw.cleanup_id]
    else []
  | none => []

/-- Second phase of the `kReplay` case (main.cpp:210-234): initialize the
connection's context to `replay_id` — failure runs `continue;`, so the loop
proceeds to the next request — then prefetch when a cache is configured,
interpret with output flushing, send the replay-finished acknowledgement
unconditionally, and run the context cleanup, whose failure runs `return;`
(terminating the connection handler).  On cleanup success, reset
`current_state` and, if a complete prewarm pairing is registered, send a
`primeState` instruction to the registered target connection. -/
def replayFromInit (cache : Bool) (ctxId : Nat) (ctxOps : Nat → Bool)
    (replay_id : String) (pw : PrewarmData) (n : Nat) : StepResult :=
  let ok1 := ctxOps n
  if ok1 = false then
    ⟨StepOut.next, pw, [Event.initOp ctxId replay_id ok1], n + 1⟩
  else
    let ok2 := ctxOps (n + 1)
    let ok3 := ctxOps (n + 2)
    let e4 := Event.initOp ctxId replay_id ok1 ::
      ((if cache then [Event.prefetchOp ctxId] else []) ++
        [Event.interpretOp ctxId true ok2, Event.sendFinished,
         Event.cleanupOp ctxId ok3])
    if ok3 = false then ⟨StepOut.halt, pw, e4, n + 3⟩
    else
      let pw' := setCurrentState pw ""
      ⟨StepOut.next, pw', e4 ++ handoffEvents pw', n + 3⟩

/-- The `kPrewarm` case (main.cpp:236-259).  If the shared context is
already in the requested prerun state, only the recorded `cleanup_id` is
overwritten.  Otherwise, if some state is loaded, `cleanup_state` runs and
its failure terminates the handler (`return;`); then `prime_state` runs and
its failure also terminates the handler. -/
def handlePrewarm (cache : Bool) (connId ctxId : Nat) (ctxOps : Nat → Bool)
    (prerun_id cleanup_id : String) (pw : PrewarmData) (n : Nat) :
    StepResult :=
  if pw.current_state = prerun_id then
    ⟨StepOut.next, setCleanupId pw cleanup_id, [], n⟩
  else if pw.current_state ≠ "" then
    match cleanup_state cache ctxOps pw n with
    | none => ⟨StepOut.crash, pw, [], n⟩
    | some r =>
      if r.ok = false then ⟨StepOut.halt, r.pw, r.evs, r.n⟩
      else
        let r2 := prime_state cache connId ctxId ctxOps prerun_id cleanup_id
          r.pw r.n
        if r2.ok = false then ⟨StepOut.halt, r2.pw, r.evs ++ r2.evs, r2.n⟩
        else ⟨StepOut.next, r2.pw, r.evs ++ r2.evs, r2.n⟩
  else
    let r2 := prime_state cache connId ctxId ctxOps prerun_id cleanup_id pw n
    if r2.ok = false then ⟨StepOut.halt, r2.pw, r2.evs, r2.n⟩
    else ⟨StepOut.next, r2.pw, r2.evs, r2.n⟩

/-- Handling of a single request by the session loop's `switch`
(main.cpp:197-262). -/
def handleRequest (cache : Bool) (connId ctxId : Nat) (ctxOps : Nat → Bool)
    (req : ReplayRequest) (pw : PrewarmData) (n : Nat) : StepResult :=
  match req with
  | ReplayRequest.replay replay_id dependent_id =>
    match replayEnter cache connId ctxId ctxOps dependent_id pw n with
    | none => ⟨StepOut.crash, pw, [], n⟩
    | some (pw1, e1, n1) =>
      let r := replayFromInit cache ctxId ctxOps replay_id pw1 n1
      ⟨r.out, r.pw, e1 ++ r.evs, r.n⟩
  | ReplayRequest.prewarm prerun_id cleanup_id =>
    handlePrewarm cache connId ctxId ctxOps prerun_id cleanup_id pw n
  | ReplayRequest.other => ⟨StepOut.next, pw, [], n⟩

/-- Why the session loop stopped: the request stream ended
(`getReplayRequest` returned null, main.cpp:192-195), a fatal failure ran
`return;`, or a null `prewarm_context` was dereferenced. -/
inductive StopReason where
  | endOfStream
  | halted
  | crashed
deriving DecidableEq, Repr

/-- Result of running a whole session. -/
structure SessionResult where
  pw : PrewarmData
  evs : List Event
  stop : StopReason
  n : Nat
deriving DecidableEq, Repr

/-- The per-connection request loop (main.cpp:190-263) over a finite
request stream. -/
def runSession (cache : Bool) (connId ctxId : Nat) (ctxOps : Nat → Bool) :
    List ReplayRequest → PrewarmData → Nat → SessionResult
  | [], pw, n => ⟨pw, [], StopReason.endOfStream, n⟩
  | req :: reqs, pw, n =>
    let s := handleRequest cache connId ctxId ctxOps req pw n
    match s.out with
    | StepOut.next =>
      let t := runSession cache connId ctxId ctxOps reqs s.pw s.n
      ⟨t.pw, s.evs ++ t.evs, t.stop, t.n⟩
    | StepOut.halt => ⟨s.pw, s.evs, StopReason.halted, s.n⟩
    | StepOut.crash => ⟨s.pw, s.evs, StopReason.crashed, s.n⟩

/-! ## Cache selection (`createCache`, main.cpp:596-669, Linux/OSX branch) -/

/-- `Options::OnDiskCache` (main.cpp:424-428). -/
structure OnDiskCacheOpts where
  enabled : Bool
  cleanUp : Bool
  path : String
deriving DecidableEq, Repr

/-- The cache instance `createCache` selects: either the in-memory backend
built from `memoryManager->getTopAddress()` or the on-disk backend at a
path together with its clean-up flag. -/
inductive CacheKind where
  | inMemory (capacity : Nat)
  | onDisk (path : String) (cleanUpFlag : Bool)
deriving DecidableEq, Repr

/-- Result of `createCache`: the selected cache and whether a cleanup
monitor process was forked (main.cpp:627). -/
structure CacheResult where
  cache : CacheKind
  monitorForked : Bool
deriving DecidableEq, Repr

/-- `createCache` (main.cpp:596-660, the Linux/OSX branch).  Collaborator
outcomes are parameters: `tempPath` is the result of
`getTempOnDiskCachePath()` (the empty string models its failure,
main.cpp:71-92), and `onDiskCreateOk p` tells whether
`OnDiskResourceCache::create(p, _)` succeeds (returns non-null).  The C++
`path.size() == 0` tests appear as equality with the empty string. -/
def createCache (opts : OnDiskCacheOpts) (topAddress : Nat)
    (tempPath : String) (onDiskCreateOk : String → Bool) : CacheResult :=
  if opts.enabled = false then ⟨CacheKind.inMemory topAddress, false⟩
  else
    let useTempCacheFolder : Bool := decide (opts.path = "")
    let cleanUpOnDiskCache :=
      if opts.path = "" then true else opts.cleanUp
    let onDiskCachePath := if opts.path = "" then tempPath else opts.path
    if onDiskCachePath = "" then ⟨CacheKind.inMemory topAddress, false⟩
    else if onDiskCreateOk onDiskCachePath = false then
      ⟨CacheKind.inMemory topAddress, false⟩
    else
      ⟨CacheKind.onDisk onDiskCachePath cleanUpOnDiskCache,
        cleanUpOnDiskCache || useTempCacheFolder⟩

/-! ## Cleanup monitor (forked child, main.cpp:627-658) -/

/-- Actions of the forked cleanup-monitor process: `poll k alive` records
the `k`-th `kill(ppid, 0)` liveness probe and its outcome, `sleepOp d`
records `usleep(d)`, `removeAll` the single recursive deletion pass (run
only when `opendir` succeeds), and `exitSelf` the final `exit(0)`. -/
inductive MonEvent where
  | poll (k : Nat) (parentAlive : Bool)
  | sleepOp (micros : Nat)
  | removeAll
  | exitSelf
deriving DecidableEq, Repr

/-- Trace of the forked monitor (main.cpp:628-657) given the parent's
liveness at each probe (`alive`), whether `opendir` on the cache directory
succeeds (`dirExists`), the index of the first probe (`k`), and a fuel
bound on the number of probes simulated.  While the parent is alive the
monitor only polls and sleeps 500000 microseconds; once a probe reports the
parent dead it performs the deletion pass (when the directory opens) and
exits. -/
def monitorRun (alive : Nat → Bool) (dirExists : Bool) :
    Nat → Nat → List MonEvent
  | _, 0 => []
  | k, fuel + 1 =>
    if alive k then
      MonEvent.poll k true :: MonEvent.sleepOp 500000 ::
        monitorRun alive dirExists (k + 1) fuel
    else
      MonEvent.poll k false ::
        ((if dirExists then [MonEvent.removeAll] else []) ++
          [MonEvent.exitSelf])

/-- A directory tree of cache artifacts, as walked by `nftw` with
`FTW_DEPTH` (main.cpp:638-650). -/
inductive FSTree where
  | file (name : String)
  | dir (name : String) (children : List FSTree)

/-- Name of the root entry of a tree. -/
def rootName : FSTree → String
  | FSTree.file n => n
  | FSTree.dir n _ => n

mutual

/-- Order in which the `nftw(..., 64, FTW_DEPTH)` walk (main.cpp:638-649)
deletes the entries of a tree rooted under the path `pre`: `FTW_DEPTH`
reports the contents of a directory before the directory itself, so the
callback `unlink`s or `rmdir`s children first.  Each entry is identified by
its full path (a list of path components). -/
def deleteOrder (pre : List String) : FSTree → List (List String)
  | FSTree.file n => [pre ++ [n]]
  | FSTree.dir n cs => deleteOrderList (pre ++ [n]) cs ++ [pre ++ [n]]

/-- `deleteOrder` mapped over a list of sibling subtrees. -/
def deleteOrderList (pre : List String) : List FSTree → List (List String)
  | [] => []
  | t :: ts => deleteOrder pre t ++ deleteOrderList pre ts

end

/-- A well-formed directory tree: sibling entries have pairwise distinct
names (as in a real filesystem). -/
inductive WfTree : FSTree → Prop where
  | file : ∀ n, WfTree (FSTree.file n)
  | dir : ∀ n cs, (∀ t ∈ cs, WfTree t) → (cs.map rootName).Nodup →
      WfTree (FSTree.dir n cs)

/-- `notAnc p q` says the path `q` does not strictly extend the path `p`:
the entry `p` is not a proper ancestor directory of the entry `q`.  A
deletion order in which every earlier entry satisfies this against every
later entry deletes files before their containing directories. -/
def notAnc (p q : List String) : Prop := ∀ r, q = p ++ r → r = []

/-! ## Spec predicates -/

/-- The spec's prewarm-pairing invariant: `prewarm_id` and `cleanup_id` are
either both empty or both non-empty. -/
def pairInvariant (pw : PrewarmData) : Prop :=
  (pw.prewarm_id = "" ∧ pw.cleanup_id = "") ∨
    (pw.prewarm_id ≠ "" ∧ pw.cleanup_id ≠ "")

instance (pw : PrewarmData) : Decidable (pairInvariant pw) := by
  unfold pairInvariant; infer_instance

/-- A request whose Prewarm ids are non-degenerate: the prerun id and the
cleanup id are both non-empty.  (Replay requests are unrestricted.) -/
def prewarmWF : ReplayRequest → Prop
  | ReplayRequest.prewarm p c => p ≠ "" ∧ c ≠ ""
  | _ => True

instance (q : ReplayRequest) : Decidable (prewarmWF q) := by
  cases q <;> (unfold prewarmWF; infer_instance)

/-- Auxiliary strengthening used to prove `pairInvariant` inductive: when a
state is loaded it is the primed one, and its context pointer is live. -/
def fullInv (pw : PrewarmData) : Prop :=
  pairInvariant pw ∧
    (pw.current_state ≠ "" →
      pw.prewarm_id = pw.current_state ∧ pw.prewarm_context ≠ none)

/-- Recognizer for `primeState` handoff instructions among events. -/
def isPrimeMsg : Event → Bool
  | Event.primeMsg _ _ _ => true
  | _ => false

/-- Recognizer for `interpret` calls among events. -/
def isInterpretOp : Event → Bool
  | Event.interpretOp _ _ _ => true
  | _ => false

/-! ## Helper lemmas -/

@[simp] theorem setCurrentState_service (pw : PrewarmData) (s : String) :
    (setCurrentState pw s).prewarm_service = pw.prewarm_service := rfl

@[simp] theorem setCurrentState_context (pw : PrewarmData) (s : String) :
    (setCurrentState pw s).prewarm_context = pw.prewarm_context := rfl

@[simp] theorem setCurrentState_prewarm_id (pw : PrewarmData) (s : String) :
    (setCurrentState pw s).prewarm_id = pw.prewarm_id := rfl

@[simp] theorem setCurrentState_cleanup_id (pw : PrewarmData) (s : String) :
    (setCurrentState pw s).cleanup_id = pw.cleanup_id := rfl

@[simp] theorem setCurrentState_current (pw : PrewarmData) (s : String) :
    (setCurrentState pw s).current_state = s := rfl

@[simp] theorem setCleanupId_service (pw : PrewarmData) (c : String) :
    (setCleanupId pw c).prewarm_service = pw.prewarm_service := rfl

@[simp] theorem setCleanupId_context (pw : PrewarmData) (c : String) :
    (setCleanupId pw c).prewarm_context = pw.prewarm_context := rfl

@[simp] theorem setCleanupId_prewarm_id (pw : PrewarmData) (c : String) :
    (setCleanupId pw c).prewarm_id = pw.prewarm_id := rfl

@[simp] theorem setCleanupId_cleanup_id (pw : PrewarmData) (c : String) :
    (setCleanupId pw c).cleanup_id = c := rfl

@[simp] theorem setCleanupId_current (pw : PrewarmData) (c : String) :
    (setCleanupId pw c).current_state = pw.current_state := rfl

theorem handoffEvents_setCurrentState (pw : PrewarmData) (s : String) :
    handoffEvents (setCurrentState pw s) = handoffEvents pw := by
  cases pw
  rfl

theorem handoffEvents_no_sendFinished (pw : PrewarmData) :
    Event.sendFinished ∉ handoffEvents pw := by
  cases hs : pw.prewarm_service with
  | none => simp [handoffEvents, hs]
  | some t =>
    unfold handoffEvents
    rw [hs]
    split <;> simp

theorem handoffEvents_countP (pw : PrewarmData) :
    (handoffEvents pw).countP isPrimeMsg
      = if pw.prewarm_service ≠ none ∧ pw.prewarm_id ≠ "" ∧
          pw.cleanup_id ≠ "" then 1 else 0 := by
  cases hs : pw.prewarm_service with
  | none => simp [handoffEvents, hs]
  | some t =>
    unfold handoffEvents
    rw [hs]
    by_cases hcond : pw.prewarm_id ≠ "" ∧ pw.cleanup_id ≠ ""
    · simp [hcond, isPrimeMsg]
    · simp [hcond]

theorem handoffEvents_mem (pw : PrewarmData) (t : Nat) (s c : String)
    (h : Event.primeMsg t s c ∈ handoffEvents pw) :
    pw.prewarm_service = some t ∧ s = pw.prewarm_id ∧
      c = pw.cleanup_id := by
  cases hs : pw.prewarm_service with
  | none => simp [handoffEvents, hs] at h
  | some u =>
    unfold handoffEvents at h
    rw [hs] at h
    dsimp only at h
    by_cases hcond : pw.prewarm_id ≠ "" ∧ pw.cleanup_id ≠ ""
    · rw [if_pos hcond] at h
      have h' := List.mem_singleton.mp h
      obtain ⟨h1, h2, h3⟩ := Event.primeMsg.inj h'
      exact ⟨by rw [h1], h2, h3⟩
    · rw [if_neg hcond] at h
      simp at h

theorem cleanup_state_eq_none_iff (cache : Bool) (ctxOps : Nat → Bool)
    (pw : PrewarmData) (n : Nat) :
    cleanup_state cache ctxOps pw n = none ↔ pw.prewarm_context = none := by
  cases hc : pw.prewarm_context with
  | none => simp [cleanup_state, hc]
  | some ctx =>
    cases h1 : ctxOps n with
    | false => simp [cleanup_state, hc, h1]
    | true =>
      cases h2 : ctxOps (n + 1) with
      | false => simp [cleanup_state, hc, h1, h2]
      | true =>
        cases h3 : ctxOps (n + 2) with
        | false => simp [cleanup_state, hc, h1, h2, h3]
        | true => simp [cleanup_state, hc, h1, h2, h3]

theorem cleanup_state_cases (cache : Bool) (ctxOps : Nat → Bool)
    (pw : PrewarmData) (n : Nat) (r : OpResult)
    (h : cleanup_state cache ctxOps pw n = some r) :
    r.ok = (ctxOps n && ctxOps (n + 1) && ctxOps (n + 2)) ∧
      ((r.ok = false ∧ r.pw = pw) ∨
        (r.ok = true ∧ r.pw = initialPrewarmData)) := by
  cases hc : pw.prewarm_context with
  | none => simp [cleanup_state, hc] at h
  | some ctx =>
    cases h1 : ctxOps n with
    | false =>
      simp [cleanup_state, hc, h1] at h
      simp [← h, h1]
    | true =>
      cases h2 : ctxOps (n + 1) with
      | false =>
        simp [cleanup_state, hc, h1, h2] at h
        simp [← h, h1, h2]
      | true =>
        cases h3 : ctxOps (n + 2) with
        | false =>
          simp [cleanup_state, hc, h1, h2, h3] at h
          simp [← h, h1, h2, h3]
        | true =>
          simp [cleanup_state, hc, h1, h2, h3] at h
          simp [← h, h1, h2, h3, initialPrewarmData]

theorem prime_state_cases (cache : Bool) (connId ctxId : Nat)
    (ctxOps : Nat → Bool) (s c : String) (pw : PrewarmData) (n : Nat) :
    (prime_state cache connId ctxId ctxOps s c pw n).ok
        = (ctxOps n && ctxOps (n + 1)) ∧
      (((prime_state cache connId ctxId ctxOps s c pw n).ok = false ∧
            (prime_state cache connId ctxId ctxOps s c pw n).pw = pw) ∨
        ((prime_state cache connId ctxId ctxOps s c pw n).ok = true ∧
            c = "" ∧
            (prime_state cache connId ctxId ctxOps s c pw n).pw = pw) ∨
        ((prime_state cache connId ctxId ctxOps s c pw n).ok = true ∧
            c ≠ "" ∧
            (prime_state cache connId ctxId ctxOps s c pw n).pw
              = ⟨some connId, some ctxId, s, c, s⟩)) := by
  cases h1 : ctxOps n with
  | false => simp [prime_state, h1]
  | true =>
    cases h2 : ctxOps (n + 1) with
    | false => simp [prime_state, h1, h2]
    | true =>
      by_cases hcx : c = ""
      · simp [prime_state, h1, h2, hcx]
      · simp [prime_state, h1, h2, hcx]

/-! ## C5, C6: atomicity of the two helper lambdas -/

/-- C5: `cleanup_state` is atomic with respect to `PrewarmData`
(main.cpp:140-160): it returns `true` exactly when its initialize,
interpret and context-cleanup steps all succeed; on any failure it returns
`false` leaving the shared state (`prewarm_id`, `cleanup_id`,
`current_state` and the prewarm target pointers) unchanged, and on success
it has cleared them all to empty/null. -/
theorem cleanup_state_atomic (cache : Bool) (ctxOps : Nat → Bool)
    (pw : PrewarmData) (n : Nat) (r : OpResult)
    (h : cleanup_state cache ctxOps pw n = some r) :
    r.ok = (ctxOps n && ctxOps (n + 1) && ctxOps (n + 2)) ∧
    (r.ok = false → r.pw = pw) ∧
    (r.ok = true → r.pw = ⟨none, none, "", "", ""⟩) := by
  have hc := cleanup_state_cases cache ctxOps pw n r h
  refine ⟨hc.1, ?_, ?_⟩ <;>
    rcases hc.2 with ⟨h1, h2⟩ | ⟨h1, h2⟩ <;> intro hb <;>
    simp_all [initialPrewarmData]

theorem cleanup_state_atomic_witness :
    ∃ r : OpResult,
      cleanup_state false (fun _ => true) ⟨some 7, some 9, "p", "c", "p"⟩ 0
          = some r ∧
        r.ok = true ∧ r.pw = ⟨none, none, "", "", ""⟩ := by
  have h : cleanup_state false (fun _ => true)
      ⟨some 7, some 9, "p", "c", "p"⟩ 0
      = some ⟨true, ⟨none, none, "", "", ""⟩,
          [Event.initOp 9 "c" true, Event.interpretOp 9 true true,
            Event.cleanupOp 9 true], 3⟩ := by decide
  have ha := cleanup_state_atomic false (fun _ => true)
    ⟨some 7, some 9, "p", "c", "p"⟩ 0 _ h
  exact ⟨_, h, rfl, ha.2.2 rfl⟩

/-- C6: `prime_state(state_id, cleanup_id)` (main.cpp:162-188): when it
returns `true` and `cleanup_id` is non-empty it has recorded
`current_state = state_id`, the given `cleanup_id`,
`prewarm_id = state_id`, and the calling connection and its context as the
prewarm target; when it returns `true` with an empty `cleanup_id`, or
returns `false`, every `PrewarmData` field is unchanged. -/
theorem prime_state_spec (cache : Bool) (connId ctxId : Nat)
    (ctxOps : Nat → Bool) (state_id cleanup_id : String) (pw : PrewarmData)
    (n : Nat) :
    ((prime_state cache connId ctxId ctxOps state_id cleanup_id pw n).ok
          = true → cleanup_id ≠ "" →
        (prime_state cache connId ctxId ctxOps state_id cleanup_id pw n).pw
          = ⟨some connId, some ctxId, state_id, cleanup_id, state_id⟩) ∧
    ((prime_state cache connId ctxId ctxOps state_id cleanup_id pw n).ok
          = true → cleanup_id = "" →
        (prime_state cache connId ctxId ctxOps state_id cleanup_id pw n).pw
          = pw) ∧
    ((prime_state cache connId ctxId ctxOps state_id cleanup_id pw n).ok
          = false →
        (prime_state cache connId ctxId ctxOps state_id cleanup_id pw n).pw
          = pw) := by
  have hp := (prime_state_cases cache connId ctxId ctxOps state_id cleanup_id
    pw n).2
  refine ⟨?_, ?_, ?_⟩ <;>
    rcases hp with ⟨h1, h2⟩ | ⟨h1, hc, h2⟩ | ⟨h1, hc, h2⟩ <;>
    intro hb <;> simp_all

theorem prime_state_spec_witness :
    (prime_state false 0 1 (fun _ => true) "s" "c" initialPrewarmData 0).pw
      = ⟨some 0, some 1, "s", "c", "s"⟩ :=
  (prime_state_spec false 0 1 (fun _ => true) "s" "c"
    initialPrewarmData 0).1 (by decide) (by decide)

/-! ## C7: state reset and prewarm handoff after a successful Replay -/

/-- C7: when a Replay request's context initialization and final context
cleanup both succeed (main.cpp:211, 225), the handler resets
`current_state` to the empty string and continues the loop; exactly when a
complete prewarm pairing is registered (`prewarm_service` set and both
`prewarm_id` and `cleanup_id` non-empty, main.cpp:229-230) a single
`primeState(prewarm_id, cleanup_id)` instruction is sent, to the
registered target connection and carrying the recorded ids
(main.cpp:231-232); no instruction is sent for an incomplete pairing. -/
theorem replay_success_reset_and_handoff (cache : Bool) (ctxId : Nat)
    (ctxOps : Nat → Bool) (replay_id : String) (pw : PrewarmData) (n : Nat)
    (hInit : ctxOps n = true) (hCleanOk : ctxOps (n + 2) = true) :
    (replayFromInit cache ctxId ctxOps replay_id pw n).out = StepOut.next ∧
    (replayFromInit cache ctxId ctxOps replay_id pw n).pw
      = setCurrentState pw "" ∧
    ((replayFromInit cache ctxId ctxOps replay_id pw n).evs.countP isPrimeMsg
      = if pw.prewarm_service ≠ none ∧ pw.prewarm_id ≠ "" ∧
          pw.cleanup_id ≠ "" then 1 else 0) ∧
    (∀ t s c, Event.primeMsg t s c
        ∈ (replayFromInit cache ctxId ctxOps replay_id pw n).evs →
      pw.prewarm_service = some t ∧ s = pw.prewarm_id ∧
        c = pw.cleanup_id) := by
  have hev : replayFromInit cache ctxId ctxOps replay_id pw n
      = ⟨StepOut.next, setCurrentState pw "",
          (Event.initOp ctxId replay_id true ::
            ((if cache then [Event.prefetchOp ctxId] else []) ++
              [Event.interpretOp ctxId true (ctxOps (n + 1)),
                Event.sendFinished, Event.cleanupOp ctxId true]))
            ++ handoffEvents (setCurrentState pw ""), n + 3⟩ := by
    simp [replayFromInit, hInit, hCleanOk]
  rw [hev]
  refine ⟨rfl, rfl, ?_, ?_⟩
  · cases cache <;>
      simp [List.countP_cons, List.countP_append, isPrimeMsg,
        handoffEvents_setCurrentState, handoffEvents_countP]
  · intro t s c hmem
    have hh : Event.primeMsg t s c ∈ handoffEvents pw := by
      rw [handoffEvents_setCurrentState] at hmem
      cases cache <;> simp at hmem <;> exact hmem
    exact handoffEvents_mem pw t s c hh

theorem replay_success_reset_and_handoff_witness :
    (replayFromInit false 1 (fun _ => true) "r"
        ⟨some 4, some 1, "p", "c", "p"⟩ 0).out = StepOut.next ∧
    (replayFromInit false 1 (fun _ => true) "r"
        ⟨some 4, some 1, "p", "c", "p"⟩ 0).pw
      = setCurrentState ⟨some 4, some 1, "p", "c", "p"⟩ "" ∧
    ((replayFromInit false 1 (fun _ => true) "r"
        ⟨some 4, some 1, "p", "c", "p"⟩ 0).evs.countP isPrimeMsg
      = if (some 4 : Option Nat) ≠ none ∧ ("p" : String) ≠ "" ∧
          ("c" : String) ≠ "" then 1 else 0) ∧
    (∀ t s c, Event.primeMsg t s c
        ∈ (replayFromInit false 1 (fun _ => true) "r"
            ⟨some 4, some 1, "p", "c", "p"⟩ 0).evs →
      (some 4 : Option Nat) = some t ∧ s = "p" ∧ c = "c") :=
  replay_success_reset_and_handoff false 1 (fun _ => true) "r"
    ⟨some 4, some 1, "p", "c", "p"⟩ 0 rfl rfl

/-! ## C1: the replay-finished acknowledgement -/

/-- C1 (amended): within a Replay request, once the handler reaches the
initialization of `replay_id` (main.cpp:211): if that initialization
succeeds, `sendReplayFinished` is sent exactly once, after the interpret
call and before the context cleanup is attempted, regardless of the
interpret outcome (main.cpp:222-225); if it fails, no acknowledgement is
sent and the loop continues with the next request (main.cpp:215). -/
theorem replay_ack_exactly_once_after_init (cache : Bool) (ctxId : Nat)
    (ctxOps : Nat → Bool) (replay_id : String) (pw : PrewarmData) (n : Nat) :
    (replayFromInit cache ctxId ctxOps replay_id pw n).evs.count
        Event.sendFinished = (if ctxOps n = true then 1 else 0) ∧
    (ctxOps n = false →
      (replayFromInit cache ctxId ctxOps replay_id pw n).out
        = StepOut.next) ∧
    (ctxOps n = true →
      ∃ l1 l2,
        (replayFromInit cache ctxId ctxOps replay_id pw n).evs
            = l1 ++ [Event.interpretOp ctxId true (ctxOps (n + 1)),
                Event.sendFinished,
                Event.cleanupOp ctxId (ctxOps (n + 2))] ++ l2 ∧
          Event.sendFinished ∉ l1 ∧ Event.sendFinished ∉ l2) := by
  cases h1 : ctxOps n with
  | false =>
    refine ⟨by simp [replayFromInit, h1], fun _ => ?_, by simp⟩
    simp [replayFromInit, h1]
  | true =>
    cases h3 : ctxOps (n + 2) with
    | false =>
      refine ⟨?_, by simp, fun _ => ⟨Event.initOp ctxId replay_id true ::
          (if cache then [Event.prefetchOp ctxId] else []), [], ?_, ?_,
          by simp⟩⟩
      · cases cache <;>
          simp [replayFromInit, h1, h3, List.count_cons, List.count_append]
      · cases cache <;> simp [replayFromInit, h1, h3]
      · cases cache <;> simp
    | true =>
      have hnm := handoffEvents_no_sendFinished (setCurrentState pw "")
      refine ⟨?_, by simp, fun _ => ⟨Event.initOp ctxId replay_id true ::
          (if cache then [Event.prefetchOp ctxId] else []),
          handoffEvents (setCurrentState pw ""), ?_, ?_, hnm⟩⟩
      · cases cache <;>
          simp [replayFromInit, h1, h3, List.count_cons, List.count_append,
            List.count_eq_zero.mpr hnm]
      · cases cache <;> simp [replayFromInit, h1, h3]
      · cases cache <;> simp

theorem replay_ack_exactly_once_after_init_witness :
    ((replayFromInit false 1 (fun _ => true) "r" initialPrewarmData 0).evs.count
        Event.sendFinished = 1) ∧
    ∃ l1 l2,
      (replayFromInit false 1 (fun _ => true) "r"
          initialPrewarmData 0).evs
          = l1 ++ [Event.interpretOp 1 true true, Event.sendFinished,
              Event.cleanupOp 1 true] ++ l2 ∧
        Event.sendFinished ∉ l1 ∧ Event.sendFinished ∉ l2 := by
  have h := replay_ack_exactly_once_after_init false 1 (fun _ => true) "r"
    initialPrewarmData 0
  exact ⟨h.1, h.2.2 rfl⟩

/-! ## C2: which cleanup failures are fatal -/

/-- C2 (amended): a failing context cleanup at the end of a Replay request
terminates the session loop (`return;`, main.cpp:225-227), and any failure
of `cleanup_state` during a Prewarm request terminates it too
(main.cpp:247-252); but the `cleanup_state` call in the Replay path is
fire-and-forget (its result is discarded, main.cpp:203): the outcome of a
Replay request is decided solely by the phase starting at the
initialization of `replay_id`, so a cleanup failure there does not
terminate the loop. -/
theorem cleanup_failure_fatality (cache : Bool) (connId ctxId : Nat)
    (ctxOps : Nat → Bool) (pw : PrewarmData) (n : Nat) :
    (∀ replay_id, ctxOps n = true → ctxOps (n + 2) = false →
      (replayFromInit cache ctxId ctxOps replay_id pw n).out
        = StepOut.halt) ∧
    (∀ prerun_id cleanup_id r, pw.current_state ≠ prerun_id →
      pw.current_state ≠ "" →
      cleanup_state cache ctxOps pw n = some r → r.ok = false →
      (handlePrewarm cache connId ctxId ctxOps prerun_id cleanup_id pw n).out
        = StepOut.halt) ∧
    (∀ replay_id dependent_id pw1 e1 n1,
      replayEnter cache connId ctxId ctxOps dependent_id pw n
        = some (pw1, e1, n1) →
      (handleRequest cache connId ctxId ctxOps
          (ReplayRequest.replay replay_id dependent_id) pw n).out
        = (replayFromInit cache ctxId ctxOps replay_id pw1 n1).out) := by
  refine ⟨?_, ?_, ?_⟩
  · intro replay_id h1 h3
    simp [replayFromInit, h1, h3]
  · intro prerun_id cleanup_id r hne hcur hcs hok
    unfold handlePrewarm
    rw [if_neg hne, if_pos hcur, hcs]
    dsimp only
    rw [if_pos hok]
  · intro replay_id dependent_id pw1 e1 n1 h
    unfold handleRequest
    dsimp only
    rw [h]

theorem cleanup_failure_fatality_witness :
    ((replayFromInit false 1 (fun k => if k = 2 then false else true) "r"
        initialPrewarmData 0).out = StepOut.halt) ∧
    ((handlePrewarm false 0 1 (fun _ => false) "q" "d"
        ⟨some 0, some 1, "p", "c", "s"⟩ 0).out = StepOut.halt) ∧
    ((handleRequest false 0 1 (fun _ => true)
        (ReplayRequest.replay "r" "") initialPrewarmData 0).out
      = (replayFromInit false 1 (fun _ => true) "r"
          initialPrewarmData 0).out) := by
  refine ⟨?_, ?_, ?_⟩
  · exact (cleanup_failure_fatality false 0 1
      (fun k => if k = 2 then false else true) initialPrewarmData 0).1 "r"
      (by decide) (by decide)
  · exact (cleanup_failure_fatality false 0 1 (fun _ => false)
      ⟨some 0, some 1, "p", "c", "s"⟩ 0).2.1 "q" "d"
      ⟨false, ⟨some 0, some 1, "p", "c", "s"⟩, [Event.initOp 1 "c" false], 1⟩
      (by decide) (by decide) (by decide) rfl
  · exact (cleanup_failure_fatality false 0 1 (fun _ => true)
      initialPrewarmData 0).2.2 "r" "" initialPrewarmData [] 0 (by decide)

/-! ## C3: matching Prewarm is a pure cleanup-id update -/

/-- C3 (amended): a Prewarm request whose prerun id matches
`current_state` performs no initialize, interpret, cleanup or prime
operation on the execution context — it emits no events — and only
overwrites the recorded `cleanup_id` (main.cpp:239-244).  Consequently,
from a state with nothing loaded, two consecutive `Prewarm(S, C)` requests
with `S` and `C` non-empty and a successful prime cause exactly one
initialize and one interpret for `S`, and leave `C` as the recorded
cleanup id. -/
theorem prewarm_match_noop_and_idempotence (cache : Bool)
    (connId ctxId : Nat) (ctxOps : Nat → Bool) (S C : String)
    (pw : PrewarmData) (n : Nat) :
    (pw.current_state = S →
      handlePrewarm cache connId ctxId ctxOps S C pw n
        = ⟨StepOut.next, setCleanupId pw C, [], n⟩) ∧
    (pw.current_state = "" → S ≠ "" → C ≠ "" →
      ctxOps n = true → ctxOps (n + 1) = true →
      (runSession cache connId ctxId ctxOps
          [ReplayRequest.prewarm S C, ReplayRequest.prewarm S C] pw
          n).evs.count (Event.initOp ctxId S true) = 1 ∧
      (runSession cache connId ctxId ctxOps
          [ReplayRequest.prewarm S C, ReplayRequest.prewarm S C] pw
          n).evs.countP isInterpretOp = 1 ∧
      (runSession cache connId ctxId ctxOps
          [ReplayRequest.prewarm S C, ReplayRequest.prewarm S C] pw
          n).stop = StopReason.endOfStream ∧
      (runSession cache connId ctxId ctxOps
          [ReplayRequest.prewarm S C, ReplayRequest.prewarm S C] pw
          n).pw.cleanup_id = C) := by
  constructor
  · intro hm
    unfold handlePrewarm
    rw [if_pos hm]
  · intro h0 hS hC h4 h5
    have hstep1 : handleRequest cache connId ctxId ctxOps
        (ReplayRequest.prewarm S C) pw n
        = ⟨StepOut.next, ⟨some connId, some ctxId, S, C, S⟩,
            Event.initOp ctxId S true ::
              ((if cache then [Event.prefetchOp ctxId] else []) ++
                [Event.interpretOp ctxId false true]), n + 2⟩ := by
      unfold handleRequest handlePrewarm
      dsimp only
      rw [if_neg (by rw [h0]; exact Ne.symm hS), if_neg (by simp [h0])]
      simp [prime_state, h4, h5, hC]
    have hstep2 : handleRequest cache connId ctxId ctxOps
        (ReplayRequest.prewarm S C)
        ⟨some connId, some ctxId, S, C, S⟩ (n + 2)
        = ⟨StepOut.next,
            setCleanupId ⟨some connId, some ctxId, S, C, S⟩ C, [],
            n + 2⟩ := by
      unfold handleRequest handlePrewarm
      dsimp only
      rw [if_pos rfl]
    have hrun : runSession cache connId ctxId ctxOps
        [ReplayRequest.prewarm S C, ReplayRequest.prewarm S C] pw n
        = ⟨setCleanupId ⟨some connId, some ctxId, S, C, S⟩ C,
            (Event.initOp ctxId S true ::
              ((if cache then [Event.prefetchOp ctxId] else []) ++
                [Event.interpretOp ctxId false true])) ++ ([] ++ []),
            StopReason.endOfStream, n + 2⟩ := by
      simp [runSession, hstep1, hstep2]
    rw [hrun]
    refine ⟨?_, ?_, rfl, by simp⟩
    · cases cache <;>
        simp [List.count_cons, List.count_append]
    · cases cache <;>
        simp [List.countP_cons, List.countP_append, isInterpretOp]

theorem prewarm_match_noop_and_idempotence_witness :
    (handlePrewarm false 0 1 (fun _ => true) "a" "b"
        ⟨some 0, some 1, "a", "z", "a"⟩ 0
      = ⟨StepOut.next, setCleanupId ⟨some 0, some 1, "a", "z", "a"⟩ "b",
          [], 0⟩) ∧
    ((runSession false 0 1 (fun _ => true)
        [ReplayRequest.prewarm "a" "b", ReplayRequest.prewarm "a" "b"]
        initialPrewarmData 0).evs.count (Event.initOp 1 "a" true) = 1 ∧
      (runSession false 0 1 (fun _ => true)
        [ReplayRequest.prewarm "a" "b", ReplayRequest.prewarm "a" "b"]
        initialPrewarmData 0).evs.countP isInterpretOp = 1 ∧
      (runSession false 0 1 (fun _ => true)
        [ReplayRequest.prewarm "a" "b", ReplayRequest.prewarm "a" "b"]
        initialPrewarmData 0).stop = StopReason.endOfStream ∧
      (runSession false 0 1 (fun _ => true)
        [ReplayRequest.prewarm "a" "b", ReplayRequest.prewarm "a" "b"]
        initialPrewarmData 0).pw.cleanup_id = "b") := by
  refine ⟨?_, ?_⟩
  · exact (prewarm_match_noop_and_idempotence false 0 1 (fun _ => true)
      "a" "b" ⟨some 0, some 1, "a", "z", "a"⟩ 0).1 rfl
  · exact (prewarm_match_noop_and_idempotence false 0 1 (fun _ => true)
      "a" "b" initialPrewarmData 0).2 rfl (by decide) (by decide) rfl rfl

/-! ## C4: the prewarm pairing invariant -/

theorem fullInv_initial : fullInv initialPrewarmData := by
  constructor
  · left; exact ⟨rfl, rfl⟩
  · intro h; exact absurd rfl h

theorem fullInv_primed (connId ctxId : Nat) (s c : String) (hs : s ≠ "")
    (hc : c ≠ "") : fullInv ⟨some connId, some ctxId, s, c, s⟩ := by
  constructor
  · right; exact ⟨hs, hc⟩
  · intro _; exact ⟨rfl, by simp⟩

theorem fullInv_setCurrent_empty (pw : PrewarmData) (h : fullInv pw) :
    fullInv (setCurrentState pw "") := by
  obtain ⟨h1, _⟩ := h
  constructor
  · rcases h1 with ⟨ha, hb⟩ | ⟨ha, hb⟩
    · exact Or.inl ⟨by simp [ha], by simp [hb]⟩
    · exact Or.inr ⟨by simp [ha], by simp [hb]⟩
  · intro hcur
    simp at hcur

theorem fullInv_setCleanup (pw : PrewarmData) (c : String) (h : fullInv pw)
    (hcur : pw.current_state ≠ "") (hc : c ≠ "") :
    fullInv (setCleanupId pw c) := by
  obtain ⟨_, h2⟩ := h
  obtain ⟨hid, hctx⟩ := h2 hcur
  constructor
  · exact Or.inr ⟨by simp [hid, hcur], by simp [hc]⟩
  · intro _
    exact ⟨by simp [hid], by simp [hctx]⟩

theorem prime_state_preserves_fullInv (cache : Bool) (connId ctxId : Nat)
    (ctxOps : Nat → Bool) (p c : String) (pw : PrewarmData) (n : Nat)
    (hp : p ≠ "") (h : fullInv pw) :
    fullInv (prime_state cache connId ctxId ctxOps p c pw n).pw := by
  rcases (prime_state_cases cache connId ctxId ctxOps p c pw n).2 with
    ⟨_, h2⟩ | ⟨_, _, h2⟩ | ⟨_, hcne, h2⟩
  · rw [h2]; exact h
  · rw [h2]; exact h
  · rw [h2]; exact fullInv_primed connId ctxId p c hp hcne

theorem replayFromInit_pw_cases (cache : Bool) (ctxId : Nat)
    (ctxOps : Nat → Bool) (replay_id : String) (pw : PrewarmData) (n : Nat) :
    (replayFromInit cache ctxId ctxOps replay_id pw n).pw = pw ∨
      (replayFromInit cache ctxId ctxOps replay_id pw n).pw
        = setCurrentState pw "" := by
  cases h1 : ctxOps n with
  | false => left; simp [replayFromInit, h1]
  | true =>
    cases h3 : ctxOps (n + 2) with
    | false => left; simp [replayFromInit, h1, h3]
    | true => right; simp [replayFromInit, h1, h3]

theorem replayEnter_pw_cases (cache : Bool) (connId ctxId : Nat)
    (ctxOps : Nat → Bool) (dependent_id : String) (pw : PrewarmData)
    (n : Nat) (pw1 : PrewarmData) (e1 : List Event) (n1 : Nat)
    (h : replayEnter cache connId ctxId ctxOps dependent_id pw n
      = some (pw1, e1, n1)) :
    pw1 = pw ∨ pw1 = initialPrewarmData := by
  unfold replayEnter at h
  by_cases hcd : pw.current_state ≠ dependent_id
  · rw [if_pos hcd] at h
    cases hcs : cleanup_state cache ctxOps pw n with
    | none => rw [hcs] at h; simp at h
    | some r =>
      rw [hcs] at h
      dsimp only at h
      have hrpw : r.pw = pw ∨ r.pw = initialPrewarmData := by
        rcases (cleanup_state_cases cache ctxOps pw n r hcs).2 with
          ⟨_, h2⟩ | ⟨_, h2⟩
        · exact Or.inl h2
        · exact Or.inr h2
      by_cases hd : dependent_id ≠ ""
      · rw [if_pos hd] at h
        have hppw : (prime_state cache connId ctxId ctxOps dependent_id ""
            r.pw r.n).pw = r.pw := by
          rcases (prime_state_cases cache connId ctxId ctxOps dependent_id ""
            r.pw r.n).2 with ⟨_, h2⟩ | ⟨_, _, h2⟩ | ⟨_, hne, _⟩
          · exact h2
          · exact h2
          · exact absurd rfl hne
        simp only [Option.some.injEq, Prod.mk.injEq] at h
        obtain ⟨hpw, _, _⟩ := h
        rw [← hpw, hppw]
        exact hrpw
      · rw [if_neg hd] at h
        simp only [Option.some.injEq, Prod.mk.injEq] at h
        obtain ⟨hpw, _, _⟩ := h
        rw [← hpw]
        exact hrpw
  · rw [if_neg hcd] at h
    simp only [Option.some.injEq, Prod.mk.injEq] at h
    obtain ⟨hpw, _, _⟩ := h
    exact Or.inl hpw.symm

theorem handleRequest_preserves_fullInv (cache : Bool) (connId ctxId : Nat)
    (ctxOps : Nat → Bool) (q : ReplayRequest) (pw : PrewarmData) (n : Nat)
    (hq : prewarmWF q) (h : fullInv pw) :
    fullInv (handleRequest cache connId ctxId ctxOps q pw n).pw := by
  cases q with
  | other => simpa [handleRequest] using h
  | replay rid did =>
    unfold handleRequest
    dsimp only
    cases he : replayEnter cache connId ctxId ctxOps did pw n with
    | none => exact h
    | some trip =>
      obtain ⟨pw1, e1, n1⟩ := trip
      have h1 : fullInv pw1 := by
        rcases replayEnter_pw_cases cache connId ctxId ctxOps did pw n pw1 e1
          n1 he with hE | hE
        · rw [hE]; exact h
        · rw [hE]; exact fullInv_initial
      show fullInv (replayFromInit cache ctxId ctxOps rid pw1 n1).pw
      rcases replayFromInit_pw_cases cache ctxId ctxOps rid pw1 n1 with
        hE | hE
      · rw [hE]; exact h1
      · rw [hE]; exact fullInv_setCurrent_empty pw1 h1
  | prewarm p c =>
    obtain ⟨hp, hc⟩ := hq
    unfold handleRequest handlePrewarm
    dsimp only
    by_cases hm : pw.current_state = p
    · rw [if_pos hm]
      exact fullInv_setCleanup pw c h (by rw [hm]; exact hp) hc
    · rw [if_neg hm]
      by_cases hcur : pw.current_state ≠ ""
      · rw [if_pos hcur]
        cases hcs : cleanup_state cache ctxOps pw n with
        | none => exact h
        | some r =>
          dsimp only
          have hr : fullInv r.pw := by
            rcases (cleanup_state_cases cache ctxOps pw n r hcs).2 with
              ⟨_, h2⟩ | ⟨_, h2⟩
            · rw [h2]; exact h
            · rw [h2]; exact fullInv_initial
          by_cases hok : r.ok = false
          · rw [if_pos hok]; exact hr
          · rw [if_neg hok]
            have hful := prime_state_preserves_fullInv cache connId ctxId
              ctxOps p c r.pw r.n hp hr
            by_cases hok2 : (prime_state cache connId ctxId ctxOps p c
                r.pw r.n).ok = false
            · rw [if_pos hok2]; exact hful
            · rw [if_neg hok2]; exact hful
      · rw [if_neg hcur]
        have hful := prime_state_preserves_fullInv cache connId ctxId ctxOps
          p c pw n hp h
        by_cases hok2 : (prime_state cache connId ctxId ctxOps p c
            pw n).ok = false
        · rw [if_pos hok2]; exact hful
        · rw [if_neg hok2]; exact hful

theorem runSession_preserves_fullInv (cache : Bool) (connId ctxId : Nat)
    (ctxOps : Nat → Bool) :
    ∀ (reqs : List ReplayRequest) (pw : PrewarmData) (n : Nat),
      (∀ q ∈ reqs, prewarmWF q) → fullInv pw →
      fullInv (runSession cache connId ctxId ctxOps reqs pw n).pw := by
  intro reqs
  induction reqs with
  | nil => intro pw n _ h; simpa [runSession] using h
  | cons q qs ih =>
    intro pw n hreqs h
    have hq : prewarmWF q := hreqs q (List.mem_cons_self q qs)
    have hqs : ∀ x ∈ qs, prewarmWF x :=
      fun x hx => hreqs x (List.mem_cons_of_mem q hx)
    have hstep := handleRequest_preserves_fullInv cache connId ctxId ctxOps
      q pw n hq h
    unfold runSession
    dsimp only
    cases ho : (handleRequest cache connId ctxId ctxOps q pw n).out with
    | next => exact ih _ _ hqs hstep
    | halt => exact hstep
    | crash => exact hstep

/-- C4 (amended): for every sequence of Replay and Prewarm requests in
which each Prewarm request carries a non-empty prerun id and a non-empty
cleanup id, every state reachable from the initial all-empty `PrewarmData`
satisfies the invariant: `prewarm_id` and `cleanup_id` are either both
empty or both non-empty.  (Prewarm requests with an empty id can break the
invariant — see the counterexample.) -/
theorem pair_invariant_reachable (cache : Bool) (connId ctxId : Nat)
    (ctxOps : Nat → Bool) (reqs : List ReplayRequest)
    (hreqs : ∀ q ∈ reqs, prewarmWF q) :
    pairInvariant (runSession cache connId ctxId ctxOps reqs
      initialPrewarmData 0).pw :=
  (runSession_preserves_fullInv cache connId ctxId ctxOps reqs
    initialPrewarmData 0 hreqs fullInv_initial).1

theorem pair_invariant_reachable_witness :
    pairInvariant (runSession false 0 1 (fun _ => true)
      [ReplayRequest.prewarm "a" "b", ReplayRequest.replay "r" "a",
        ReplayRequest.prewarm "a" "b"]
      initialPrewarmData 0).pw :=
  pair_invariant_reachable false 0 1 (fun _ => true) _ (by decide)

/-! ## C8: cache-selection fallback chain -/

/-- C8: `createCache` (main.cpp:596-660) returns the in-memory cache sized
by the arena's top address whenever caching is disabled, whenever no path
is given and no temporary directory is obtainable, and whenever the
on-disk cache construction fails — and in all of these cases no cleanup
monitor is forked; a monitor is forked exactly when an on-disk cache was
created and clean-up was requested or a temporary directory was used. -/
theorem createCache_fallback_spec (opts : OnDiskCacheOpts) (topAddress : Nat)
    (tempPath : String) (onDiskCreateOk : String → Bool) :
    (opts.enabled = false →
      createCache opts topAddress tempPath onDiskCreateOk
        = ⟨CacheKind.inMemory topAddress, false⟩) ∧
    (opts.path = "" → tempPath = "" →
      createCache opts topAddress tempPath onDiskCreateOk
        = ⟨CacheKind.inMemory topAddress, false⟩) ∧
    (∀ p, p = (if opts.path = "" then tempPath else opts.path) → p ≠ "" →
      onDiskCreateOk p = false →
      createCache opts topAddress tempPath onDiskCreateOk
        = ⟨CacheKind.inMemory topAddress, false⟩) ∧
    ((createCache opts topAddress tempPath onDiskCreateOk).monitorForked
        = true ↔
      (∃ p cl, (createCache opts topAddress tempPath onDiskCreateOk).cache
          = CacheKind.onDisk p cl) ∧
        (opts.cleanUp = true ∨ opts.path = "")) := by
  refine ⟨fun he => by simp [createCache, he], ?_, ?_, ?_⟩
  · intro h1 h2
    simp [createCache, h1, h2]
  · intro p hpeq hne hok
    by_cases hp0 : opts.path = ""
    · rw [if_pos hp0] at hpeq
      subst hpeq
      simp [createCache, hp0, hne, hok]
    · rw [if_neg hp0] at hpeq
      subst hpeq
      simp [createCache, hp0, hne, hok]
  · cases he : opts.enabled with
    | false => simp [createCache, he]
    | true =>
      by_cases hp0 : opts.path = ""
      · by_cases ht : tempPath = ""
        · simp [createCache, he, hp0, ht]
        · cases hok : onDiskCreateOk tempPath with
          | false => simp [createCache, he, hp0, ht, hok]
          | true => simp [createCache, he, hp0, ht, hok]
      · cases hok : onDiskCreateOk opts.path with
        | false => simp [createCache, he, hp0, hok]
        | true =>
          cases hcu : opts.cleanUp with
          | false => simp [createCache, he, hp0, hok, hcu]
          | true => simp [createCache, he, hp0, hok, hcu]

theorem createCache_fallback_spec_witness :
    (createCache ⟨false, false, "d"⟩ 64 "" (fun _ => true)
      = ⟨CacheKind.inMemory 64, false⟩) ∧
    (createCache ⟨true, false, ""⟩ 64 "" (fun _ => true)
      = ⟨CacheKind.inMemory 64, false⟩) ∧
    (createCache ⟨true, false, "d"⟩ 64 "" (fun _ => false)
      = ⟨CacheKind.inMemory 64, false⟩) ∧
    ((createCache ⟨true, true, "d"⟩ 64 "" (fun _ => true)).monitorForked
        = true ↔
      (∃ p cl, (createCache ⟨true, true, "d"⟩ 64 ""
          (fun _ => true)).cache = CacheKind.onDisk p cl) ∧
        ((true : Bool) = true ∨ ("d" : String) = "")) := by
  refine ⟨?_, ?_, ?_, ?_⟩
  · exact (createCache_fallback_spec ⟨false, false, "d"⟩ 64 ""
      (fun _ => true)).1 rfl
  · exact (createCache_fallback_spec ⟨true, false, ""⟩ 64 ""
      (fun _ => true)).2.1 rfl rfl
  · exact (createCache_fallback_spec ⟨true, false, "d"⟩ 64 ""
      (fun _ => false)).2.2.1 "d" (by decide) (by decide) rfl
  · exact (createCache_fallback_spec ⟨true, true, "d"⟩ 64 ""
      (fun _ => true)).2.2.2

/-! ## C9: cleanup-monitor behaviour -/

theorem monitorRun_count_removeAll (alive : Nat → Bool) (dirExists : Bool) :
    ∀ (fuel k : Nat),
      (monitorRun alive dirExists k fuel).count MonEvent.removeAll ≤ 1 := by
  intro fuel
  induction fuel with
  | zero => intro k; simp [monitorRun]
  | succ m ih =>
    intro k
    unfold monitorRun
    cases ha : alive k with
    | true =>
      simpa [List.count_cons] using ih (k + 1)
    | false =>
      cases dirExists <;> simp [List.count_cons]

theorem monitorRun_no_act_while_alive (alive : Nat → Bool)
    (dirExists : Bool) :
    ∀ (fuel k : Nat), (∀ j, j < fuel → alive (k + j) = true) →
      MonEvent.removeAll ∉ monitorRun alive dirExists k fuel ∧
      MonEvent.exitSelf ∉ monitorRun alive dirExists k fuel := by
  intro fuel
  induction fuel with
  | zero => intro k _; simp [monitorRun]
  | succ m ih =>
    intro k h
    have ha : alive k = true := by simpa using h 0 (Nat.succ_pos m)
    have h' : ∀ j, j < m → alive (k + 1 + j) = true := by
      intro j hj
      have := h (j + 1) (Nat.succ_lt_succ hj)
      simpa [Nat.add_assoc, Nat.add_comm 1 j] using this
    have hih := ih (k + 1) h'
    unfold monitorRun
    rw [ha]
    constructor <;> simp [hih.1, hih.2]

theorem monitorRun_removeAll_after_dead (alive : Nat → Bool)
    (dirExists : Bool) :
    ∀ (fuel k : Nat) (l1 l2 : List MonEvent),
      monitorRun alive dirExists k fuel
        = l1 ++ MonEvent.removeAll :: l2 →
      ∃ j, MonEvent.poll j false ∈ l1 ∧ alive j = false := by
  intro fuel
  induction fuel with
  | zero =>
    intro k l1 l2 h
    rw [monitorRun] at h
    cases l1 <;> simp at h
  | succ m ih =>
    intro k l1 l2 h
    unfold monitorRun at h
    cases ha : alive k with
    | true =>
      rw [ha] at h
      simp only [if_true] at h
      cases l1 with
      | nil => simp at h
      | cons x l1' =>
        rw [List.cons_append] at h
        injection h with hx h
        cases l1' with
        | nil => simp at h
        | cons y l1'' =>
          rw [List.cons_append] at h
          injection h with hy h
          obtain ⟨j, hj, haj⟩ := ih (k + 1) l1'' l2 h
          exact ⟨j, by simp [hj], haj⟩
    | false =>
      rw [ha] at h
      simp only [Bool.false_eq_true, if_false] at h
      cases l1 with
      | nil => simp at h
      | cons x l1' =>
        rw [List.cons_append] at h
        injection h with hx h
        exact ⟨k, by rw [← hx]; exact List.mem_cons_self _ _, ha⟩

theorem monitorRun_sleep_interval (alive : Nat → Bool) (dirExists : Bool) :
    ∀ (fuel k d : Nat),
      MonEvent.sleepOp d ∈ monitorRun alive dirExists k fuel →
      d = 500000 := by
  intro fuel
  induction fuel with
  | zero => intro k d h; simp [monitorRun] at h
  | succ m ih =>
    intro k d h
    unfold monitorRun at h
    cases ha : alive k with
    | true =>
      rw [ha] at h
      simp at h
      rcases h with h | h
      · exact h
      · exact ih (k + 1) d h
    | false =>
      rw [ha] at h
      cases dirExists <;> simp at h

theorem monitorRun_delete_then_exit (alive : Nat → Bool) (dirExists : Bool) :
    ∀ (fuel k : Nat),
      MonEvent.removeAll ∈ monitorRun alive dirExists k fuel →
      ∃ l, monitorRun alive dirExists k fuel = l ++ [MonEvent.exitSelf] ∧
        MonEvent.exitSelf ∉ l := by
  intro fuel
  induction fuel with
  | zero => intro k h; simp [monitorRun] at h
  | succ m ih =>
    intro k h
    unfold monitorRun at h ⊢
    cases ha : alive k with
    | true =>
      rw [ha] at h
      rw [if_pos rfl] at h ⊢
      have h' : MonEvent.removeAll ∈ monitorRun alive dirExists (k + 1) m := by
        simp at h
        exact h
      obtain ⟨l, hl, hnl⟩ := ih (k + 1) h'
      refine ⟨MonEvent.poll k true :: MonEvent.sleepOp 500000 :: l, ?_, ?_⟩
      · simp [hl]
      · simp [hnl]
    | false =>
      rw [ha] at h
      rw [if_neg Bool.false_ne_true] at h ⊢
      cases dirExists with
      | true =>
        exact ⟨[MonEvent.poll k false, MonEvent.removeAll], by simp, by simp⟩
      | false => simp at h

theorem notAnc_of_longer {p q : List String} (h : q.length < p.length) :
    notAnc p q := by
  intro r hr
  exfalso
  have hlen := congrArg List.length hr
  simp [List.length_append] at hlen
  omega

theorem notAnc_of_head_ne {pre : List String} {a b : String}
    {u v : List String} (hab : a ≠ b) :
    notAnc (pre ++ [a] ++ u) (pre ++ [b] ++ v) := by
  intro r hr
  exfalso
  apply hab
  rw [List.append_assoc (pre ++ [a]) u r] at hr
  have h2 := (List.append_inj hr (by simp)).1
  simpa using h2.symm

mutual

theorem deleteOrder_shape (t : FSTree) (pre : List String) :
    ∀ p ∈ deleteOrder pre t, ∃ s, p = pre ++ [rootName t] ++ s := by
  cases t with
  | file nm =>
    intro p hp
    simp [deleteOrder] at hp
    exact ⟨[], by simp [hp, rootName]⟩
  | dir nm cs =>
    intro p hp
    simp only [deleteOrder] at hp
    rcases List.mem_append.mp hp with h | h
    · obtain ⟨t', _, s, hs⟩ := deleteOrderList_shape cs (pre ++ [nm]) p h
      exact ⟨[rootName t'] ++ s, by simp [hs, rootName]⟩
    · simp at h
      exact ⟨[], by simp [h, rootName]⟩

theorem deleteOrderList_shape (ts : List FSTree) (pre : List String) :
    ∀ p ∈ deleteOrderList pre ts,
      ∃ t ∈ ts, ∃ s, p = pre ++ [rootName t] ++ s := by
  cases ts with
  | nil => intro p hp; simp [deleteOrderList] at hp
  | cons t ts' =>
    intro p hp
    simp only [deleteOrderList] at hp
    rcases List.mem_append.mp hp with h | h
    · obtain ⟨s, hs⟩ := deleteOrder_shape t pre p h
      exact ⟨t, List.mem_cons_self t ts', s, hs⟩
    · obtain ⟨t', ht', s, hs⟩ := deleteOrderList_shape ts' pre p h
      exact ⟨t', List.mem_cons_of_mem t ht', s, hs⟩

end

mutual

theorem deleteOrder_pairwise (t : FSTree) (pre : List String)
    (hw : WfTree t) : (deleteOrder pre t).Pairwise notAnc := by
  cases t with
  | file nm => simp [deleteOrder]
  | dir nm cs =>
    cases hw with
    | dir _ _ hcs hnd =>
      simp only [deleteOrder]
      rw [List.pairwise_append]
      refine ⟨deleteOrderList_pairwise cs (pre ++ [nm]) hcs hnd,
        by simp, ?_⟩
      intro a ha b hb
      have hb' := List.mem_singleton.mp hb
      obtain ⟨t', _, s, hs⟩ := deleteOrderList_shape cs (pre ++ [nm]) a ha
      rw [hs, hb']
      apply notAnc_of_longer
      simp [List.length_append]

theorem deleteOrderList_pairwise (ts : List FSTree) (pre : List String)
    (hw : ∀ t ∈ ts, WfTree t) (hnd : (ts.map rootName).Nodup) :
    (deleteOrderList pre ts).Pairwise notAnc := by
  cases ts with
  | nil => simp [deleteOrderList]
  | cons t ts' =>
    simp only [deleteOrderList]
    rw [List.pairwise_append]
    rw [List.map_cons, List.nodup_cons] at hnd
    refine ⟨deleteOrder_pairwise t pre (hw t (List.mem_cons_self t ts')),
      deleteOrderList_pairwise ts' pre
        (fun x hx => hw x (List.mem_cons_of_mem t hx)) hnd.2, ?_⟩
    intro a ha b hb
    obtain ⟨s, hsa⟩ := deleteOrder_shape t pre a ha
    obtain ⟨t', ht', s', hsb⟩ := deleteOrderList_shape ts' pre b hb
    have hne : rootName t ≠ rootName t' := by
      intro hEq
      exact hnd.1 (hEq ▸ List.mem_map_of_mem rootName ht')
    rw [hsa, hsb]
    exact notAnc_of_head_ne hne

end

/-- C9: the forked cleanup monitor (main.cpp:627-658): it performs its
deletion pass at most once; it never deletes (nor exits) while every
liveness probe reports the parent alive; any deletion is preceded by a
probe that observed the parent dead; the probes are separated by sleeps of
the fixed 500000-microsecond (500ms) interval; once it has deleted it
terminates itself (its trace ends with `exit(0)` and nothing follows); and
the `nftw(..., FTW_DEPTH)` deletion order is depth-first — no entry is
deleted before any entry of the subtree it contains (for trees with
distinct sibling names). -/
theorem cleanup_monitor_spec (alive : Nat → Bool) (dirExists : Bool)
    (fuel k : Nat) :
    ((monitorRun alive dirExists k fuel).count MonEvent.removeAll ≤ 1) ∧
    ((∀ j, j < fuel → alive (k + j) = true) →
      MonEvent.removeAll ∉ monitorRun alive dirExists k fuel) ∧
    (∀ l1 l2, monitorRun alive dirExists k fuel
        = l1 ++ MonEvent.removeAll :: l2 →
      ∃ j, MonEvent.poll j false ∈ l1 ∧ alive j = false) ∧
    (∀ d, MonEvent.sleepOp d ∈ monitorRun alive dirExists k fuel →
      d = 500000) ∧
    (MonEvent.removeAll ∈ monitorRun alive dirExists k fuel →
      ∃ l, monitorRun alive dirExists k fuel = l ++ [MonEvent.exitSelf] ∧
        MonEvent.exitSelf ∉ l) ∧
    (∀ (pre : List String) (t : FSTree), WfTree t →
      (deleteOrder pre t).Pairwise notAnc) :=
  ⟨monitorRun_count_removeAll alive dirExists fuel k,
    fun h => (monitorRun_no_act_while_alive alive dirExists fuel k h).1,
    fun l1 l2 h =>
      monitorRun_removeAll_after_dead alive dirExists fuel k l1 l2 h,
    fun d h => monitorRun_sleep_interval alive dirExists fuel k d h,
    fun h => monitorRun_delete_then_exit alive dirExists fuel k h,
    fun pre t hw => deleteOrder_pairwise t pre hw⟩

theorem cleanup_monitor_spec_witness :
    (MonEvent.removeAll ∉ monitorRun (fun _ => true) true 0 3) ∧
    (∃ j, MonEvent.poll j false
        ∈ [MonEvent.poll 0 true, MonEvent.sleepOp 500000,
            MonEvent.poll 1 true, MonEvent.sleepOp 500000,
            MonEvent.poll 2 false] ∧
      (fun j => decide (j < 2)) j = false) ∧
    ((500000 : Nat) = 500000) ∧
    (∃ l, monitorRun (fun j => decide (j < 2)) true 0 5
        = l ++ [MonEvent.exitSelf] ∧ MonEvent.exitSelf ∉ l) ∧
    (deleteOrder ["cache"] (FSTree.dir "root"
        [FSTree.file "a", FSTree.dir "sub" [FSTree.file "b"]])).Pairwise
      notAnc := by
  have hwf : WfTree (FSTree.dir "root"
      [FSTree.file "a", FSTree.dir "sub" [FSTree.file "b"]]) := by
    refine WfTree.dir _ _ ?_ (by decide)
    intro t ht
    simp only [List.mem_cons, List.mem_singleton] at ht
    rcases ht with rfl | rfl | h
    · exact WfTree.file _
    · refine WfTree.dir _ _ ?_ (by decide)
      intro x hx
      simp only [List.mem_singleton] at hx
      rw [hx]
      exact WfTree.file _
    · simp at h
  refine ⟨?_, ?_, ?_, ?_, ?_⟩
  · exact (cleanup_monitor_spec (fun _ => true) true 3 0).2.1
      (fun j hj => rfl)
  · exact (cleanup_monitor_spec (fun j => decide (j < 2)) true 5 0).2.2.1
      [MonEvent.poll 0 true, MonEvent.sleepOp 500000, MonEvent.poll 1 true,
        MonEvent.sleepOp 500000, MonEvent.poll 2 false]
      [MonEvent.exitSelf] (by decide)
  · exact (cleanup_monitor_spec (fun j => decide (j < 2)) true 5 0).2.2.2.1
      500000 (by decide)
  · exact (cleanup_monitor_spec (fun j => decide (j < 2)) true 5
      0).2.2.2.2.1 (by decide)
  · exact (cleanup_monitor_spec (fun _ => true) true 0 0).2.2.2.2.2
      ["cache"] _ hwf

/-! ## Counterexamples and the null-dereference evaluation -/

/-- C1 (counterexample): a Replay request whose context initialization
fails is processed by the loop — the handler runs `continue;` — yet
`sendReplayFinished` is never sent, refuting "the acknowledgement is sent
exactly once regardless of whether initialize succeeds or fails"
(main.cpp:211-216: the `continue` skips line 224). -/
theorem replay_ack_skipped_on_init_failure :
    (handleRequest false 0 1 (fun _ => false)
        (ReplayRequest.replay "r" "") initialPrewarmData 0).out
      = StepOut.next ∧
    (handleRequest false 0 1 (fun _ => false)
        (ReplayRequest.replay "r" "") initialPrewarmData 0).evs.count
        Event.sendFinished = 0 := by
  decide

/-- C2 (counterexample): in the Replay path the boolean result of
`cleanup_state` is discarded (main.cpp:203), so a failing context-cleanup
step inside it (`Event.cleanupOp 1 false` below) does not terminate the
session: the request completes and the loop continues (`StepOut.next`). -/
theorem replay_path_cleanup_state_failure_not_fatal :
    (handleRequest false 0 1 (fun k => if k = 2 then false else true)
        (ReplayRequest.replay "r" "") ⟨some 0, some 1, "s", "c", "s"⟩ 0).out
      = StepOut.next ∧
    Event.cleanupOp 1 false ∈
      (handleRequest false 0 1 (fun k => if k = 2 then false else true)
        (ReplayRequest.replay "r" "") ⟨some 0, some 1, "s", "c", "s"⟩ 0).evs := by
  decide

/-- C3 (counterexample): two consecutive `Prewarm("x", "")` requests (an
empty cleanup id) cause two initialize/interpret cycles for `"x"`, because
`prime_state` with an empty cleanup id records nothing, so the second
request finds `current_state ≠ "x"` and primes again (main.cpp:180-186,
239). -/
theorem prewarm_twice_empty_cleanup_double_init :
    (runSession false 0 1 (fun _ => true)
        [ReplayRequest.prewarm "x" "", ReplayRequest.prewarm "x" ""]
        initialPrewarmData 0).evs.count (Event.initOp 1 "x" true) = 2 := by
  decide

/-- C4 (counterexample): the very first request `Prewarm("", "X")` hits the
matching-state branch (both `current_state` and the prerun id are empty)
and overwrites only `cleanup_id` (main.cpp:239-244), leaving
`prewarm_id = ""` and `cleanup_id = "X"` — violating the both-empty-or-
both-non-empty invariant. -/
theorem pair_invariant_broken_by_empty_prerun :
    (handleRequest false 0 1 (fun _ => true)
        (ReplayRequest.prewarm "" "X") initialPrewarmData 0).pw.prewarm_id
      = "" ∧
    (handleRequest false 0 1 (fun _ => true)
        (ReplayRequest.prewarm "" "X") initialPrewarmData 0).pw.cleanup_id
      = "X" ∧
    ¬ pairInvariant (handleRequest false 0 1 (fun _ => true)
        (ReplayRequest.prewarm "" "X") initialPrewarmData 0).pw := by
  decide

/-- C10 (failing input evaluated): on a fresh connection, whose
`PrewarmData` is all-empty with a null `prewarm_context`, the first request
`Replay("r", "d")` finds `current_state ≠ dependent_id` and invokes
`cleanup_state` (main.cpp:201-203), which immediately dereferences the null
`prewarm->prewarm_context` (main.cpp:141) — modelled as the `crashed`
stop reason. -/
theorem replay_path_null_cleanup_state_crash :
    initialPrewarmData.prewarm_context = none ∧
    cleanup_state false (fun _ => true) initialPrewarmData 0 = none ∧
    (runSession false 0 1 (fun _ => true) [ReplayRequest.replay "r" "d"]
        initialPrewarmData 0).stop = StopReason.crashed := by
  decide

end Gapir
